import Mathlib

set_option maxRecDepth 40000

/-!
Verification of the guest credit/balance reconciliation engine

Shallow embedding of the balance reconciler, credit gate and payment-poll
logic of the repository (`src/lib/server-store.ts` and the API route
handlers under `src/app/api`), together with proofs and refutations of the
claims of the specification about them.

Modelling conventions:
* JavaScript numbers are IEEE 754 binary64 values.  Amounts are integers in
  the smallest currency unit; binary64 represents every integer below `2^53`
  exactly, so integer-valued amounts, sums and maxima are embedded as `ℕ`.
  The currency conversions, however, perform genuinely fractional binary64
  division and multiplication (`totalReceived / Math.pow(10, scale)` etc.),
  whose rounding is observable; they are embedded through an explicit
  round-to-nearest binary64 model on `ℚ` (`roundB64` below).
* `Math.floor(a / b)` on integer-valued `a`, `b` in the range the program handles
  agrees with natural-number division and is embedded as `Nat` division.
* The key/value store (Redis or the in-memory fallback) is embedded as an
  explicit `Store` state record; each route handler is a pure function from
  the store (plus request data and fetch outcomes) to a store and response.
* `Date.now()`-style timestamps are threaded as a `now : ℕ` parameter.
-/

/-! ## Binary64 arithmetic model

A binary64 value is represented as `m * 2^e` with an integer significand
`m` (at most 53 bits after rounding) and an unbounded integer exponent; the
exponent range of IEEE 754 (overflow to infinity, subnormal underflow) is
not reachable for the magnitudes the program handles and is not modelled.
All operations round to nearest, ties to even — the rounding JavaScript
arithmetic uses. -/

structure F64 where
  m : ℤ
  e : ℤ
deriving Repr, DecidableEq

/-- The binary64 value zero. -/
def F64.zero : F64 := ⟨0, 0⟩

/-- Number of binary digits of `n`, computed with an explicit fuel bound so
that it reduces structurally (the fuel covers every quantity that occurs in
the evaluations below). -/
def bitlenAux : ℕ → ℕ → ℕ
  | 0, _ => 0
  | fuel + 1, n => if n = 0 then 0 else bitlenAux fuel (n / 2) + 1

/-- Number of binary digits of `n` (`0` for `0`). -/
def bitlen (n : ℕ) : ℕ := bitlenAux 256 n

/-- Whether `n * 2^k ≥ d`, for an integer shift `k`. -/
def geScaled (n d : ℕ) (k : ℤ) : Bool :=
  if 0 ≤ k then decide (d ≤ n * 2 ^ k.toNat) else decide (d * 2 ^ (-k).toNat ≤ n)

/-- Round the positive rational `(n / d) * 2^e` to the nearest binary64
value, ties to even: compute the binade exponent `e0` of `n / d` from the
bit lengths of `n` and `d`, scale to a 53-bit significand, and round the
integer division `n' / d'` to nearest with ties to even. -/
def roundPosRat (n d : ℕ) (e : ℤ) : F64 :=
  let c : ℤ := (bitlen n : ℤ) - (bitlen d : ℤ)
  let e0 : ℤ := if geScaled n d (-c) then c else c - 1
  let t : ℤ := 52 - e0
  let n' : ℕ := if 0 ≤ t then n * 2 ^ t.toNat else n
  let d' : ℕ := if 0 ≤ t then d else d * 2 ^ (-t).toNat
  let m0 : ℕ := n' / d'
  let r : ℕ := n' % d'
  let m : ℕ :=
    if 2 * r < d' then m0
    else if d' < 2 * r then m0 + 1
    else if m0 % 2 = 0 then m0 else m0 + 1
  ⟨(m : ℤ), e0 - 52 + e⟩

/-- Round the exact dyadic value `m * 2^e` to binary64 (used after exact
integer products). -/
def roundDyadic (m : ℤ) (e : ℤ) : F64 :=
  if m = 0 then F64.zero
  else
    let r := roundPosRat m.natAbs 1 e
    if m < 0 then ⟨-r.m, r.e⟩ else r

/-- Binary64 multiplication: the exact product, correctly rounded. -/
def jsMul (a b : F64) : F64 := roundDyadic (a.m * b.m) (a.e + b.e)

/-- Binary64 division: the exact quotient, correctly rounded.  (Division by
zero, which JavaScript maps to an infinity, does not occur in the modelled
code paths: the divisors are powers of ten.) -/
def jsDiv (a b : F64) : F64 :=
  if a.m = 0 ∨ b.m = 0 then F64.zero
  else
    let r := roundPosRat a.m.natAbs b.m.natAbs (a.e - b.e)
    if (a.m < 0 ∧ 0 < b.m) ∨ (0 < a.m ∧ b.m < 0) then ⟨-r.m, r.e⟩ else r

/-- The binary64 value holding the integer `n` (exact below `2^53`, which
covers every amount the program handles; rounded beyond, as in JavaScript). -/
def F64.ofNat (n : ℕ) : F64 := roundDyadic (n : ℤ) 0

/-- `Math.floor` of a binary64 value, as an integer. -/
def F64.floor (x : F64) : ℤ :=
  if 0 ≤ x.e then x.m * 2 ^ x.e.toNat else Int.fdiv x.m (2 ^ (-x.e).toNat)

/-- `Math.pow(10, s)`: the binary64 value nearest to `10^s` (exact for
every scale the program uses). -/
def pow10f (s : ℕ) : F64 := roundDyadic ((10 : ℤ) ^ s) 0

/-- The currency conversion performed by `updateGuestBalance` (and, for
legacy data, by `getGuestBalance`) in `src/lib/server-store.ts`:

    const displayValue = totalReceived / Math.pow(10, assetScale);
    totalReceivedInSessionCurrency =
      Math.floor(displayValue * Math.pow(10, sessionScale));

carried out in binary64 arithmetic.  The result of `Math.floor` on a
nonnegative value is a nonnegative integer, returned here as `ℕ`. -/
def convertAmount (amount fromScale toScale : ℕ) : ℕ :=
  let displayValue := jsDiv (F64.ofNat amount) (pow10f fromScale)
  (jsMul displayValue (pow10f toScale)).floor.toNat

/-! ## Data model (`src/lib/types.ts` as used by the store and routes) -/

/-- A session, as far as the balance/credit logic reads it:
`questionPrice` (smallest currency unit), and the authoritative currency
`assetCode`/`assetScale` all guest balances must be expressed in. -/
structure Session where
  questionPrice : ℕ
  assetCode : String
  assetScale : ℕ
deriving Repr, DecidableEq

/-- A question, with the fields the credit computation and the questions
route read or write.  `guestId` is the optional metadata field the questions
route attaches (`...(body.guestId && { guestId: body.guestId })`). -/
structure Question where
  id : String
  sessionId : String
  text : String
  submitterName : String
  submitterWalletAddress : String
  amountPaid : ℕ
  status : String
  createdAt : ℕ
  upvotes : ℕ
  guestId : Option String
deriving Repr, DecidableEq

/-- `GuestPayment` — one record per (guestId, sessionId). -/
structure GuestPayment where
  guestId : String
  sessionId : String
  incomingPaymentUrls : List String
  totalReceived : ℕ
  assetCode : String
  assetScale : ℕ
  lastUpdated : ℕ
deriving Repr, DecidableEq

/-- `GuestBalance` — the derived view returned by `getGuestBalance`.
`balance` and `questionCredits` are computed through `Math.max(0, ·)` on a
possibly negative difference, hence `ℤ`. -/
structure GuestBalance where
  guestId : String
  sessionId : String
  balance : ℤ
  totalReceived : ℕ
  questionCredits : ℤ
  assetCode : String
  assetScale : ℕ
deriving Repr, DecidableEq

/-- The persistent key/value store (Redis, or the in-memory fallback):
sessions by id, questions by session id (`getQuestionsBySession`), and
guest payment records keyed by (guestId, sessionId). -/
structure Store where
  sessions : String → Option Session
  questions : String → List Question
  guestPayments : String → String → Option GuestPayment

/-! ## Store operations (`src/lib/server-store.ts`) -/

/-- `getGuestPayment(guestId, sessionId)`. -/
def getGuestPayment (st : Store) (guestId sessionId : String) : Option GuestPayment :=
  st.guestPayments guestId sessionId

/-- Write a guest payment record at its (guestId, sessionId) key. -/
def setGuestPayment (st : Store) (guestId sessionId : String) (gp : GuestPayment) : Store :=
  { st with guestPayments := fun g s =>
      if g = guestId ∧ s = sessionId then some gp else st.guestPayments g s }

/-- `createOrUpdateGuestPayment`: return the existing record if any
(rewriting it unchanged), else create a fresh record with
`incomingPaymentUrls = []` and `totalReceived = 0` in the given currency. -/
def createOrUpdateGuestPayment (st : Store) (guestId sessionId : String)
    (assetCode : String) (assetScale : ℕ) (now : ℕ) : Store × GuestPayment :=
  let guestPayment : GuestPayment :=
    match getGuestPayment st guestId sessionId with
    | some existing => existing
    | none =>
        { guestId := guestId, sessionId := sessionId, incomingPaymentUrls := [],
          totalReceived := 0, assetCode := assetCode, assetScale := assetScale,
          lastUpdated := now }
  (setGuestPayment st guestId sessionId guestPayment, guestPayment)

/-- `addIncomingPaymentUrl`: create the record if missing, then add the URL
if not already present (`lastUpdated` is only touched when the URL is new),
and store the record back. -/
def addIncomingPaymentUrl (st : Store) (guestId sessionId incomingPaymentUrl : String)
    (assetCode : String) (assetScale : ℕ) (now : ℕ) : Store × GuestPayment :=
  let st1gp :=
    match getGuestPayment st guestId sessionId with
    | some gp => (st, gp)
    | none => createOrUpdateGuestPayment st guestId sessionId assetCode assetScale now
  let gp0 := st1gp.2
  let gp1 :=
    if incomingPaymentUrl ∈ gp0.incomingPaymentUrls then gp0
    else { gp0 with incomingPaymentUrls := gp0.incomingPaymentUrls ++ [incomingPaymentUrl],
                    lastUpdated := now }
  (setGuestPayment st1gp.1 guestId sessionId gp1, gp1)

/-- `session?.assetCode || assetCode`: JavaScript `||` also falls through on
an empty (falsy) currency string. -/
def sessionCurrencyOf (session : Option Session) (assetCode : String) : String :=
  match session with
  | some s => if s.assetCode = "" then assetCode else s.assetCode
  | none => assetCode

/-- `session?.assetScale ?? assetScale` (nullish coalescing: a stored scale
of `0` is kept). -/
def sessionScaleOf (session : Option Session) (assetScale : ℕ) : ℕ :=
  match session with
  | some s => s.assetScale
  | none => assetScale

/-- `updateGuestBalance(guestId, sessionId, totalReceived, assetCode,
assetScale, increment?)`: normalize the incoming amount to the currency of the session, convert a stored record in a mismatched currency, then either add
(`increment = true`, streaming path) or take the max (`increment = false`,
poll/ratchet path); the currency of the stored record is always forced to that of the
session.  Returns the updated store and record. -/
def updateGuestBalance (st : Store) (guestId sessionId : String)
    (totalReceived : ℕ) (assetCode : String) (assetScale : ℕ)
    (increment : Bool) (now : ℕ) : Store × GuestPayment :=
  let session := st.sessions sessionId
  let sessionCurrency := sessionCurrencyOf session assetCode
  let sessionScale := sessionScaleOf session assetScale
  let st1gp :=
    match getGuestPayment st guestId sessionId with
    | some gp => (st, gp)
    | none => createOrUpdateGuestPayment st guestId sessionId sessionCurrency sessionScale now
  let gp0 := st1gp.2
  -- convert incoming payment to session currency if needed
  let totalReceivedInSessionCurrency :=
    if assetCode ≠ sessionCurrency ∨ assetScale ≠ sessionScale then
      convertAmount totalReceived assetScale sessionScale
    else totalReceived
  -- if the existing payment is in a different currency, convert it first
  let existingConverted :=
    if gp0.assetCode ≠ sessionCurrency ∨ gp0.assetScale ≠ sessionScale then
      convertAmount gp0.totalReceived gp0.assetScale sessionScale
    else gp0.totalReceived
  let newTotal :=
    if increment then existingConverted + totalReceivedInSessionCurrency
    else max existingConverted totalReceivedInSessionCurrency
  let gp1 :=
    { gp0 with totalReceived := newTotal, assetCode := sessionCurrency,
               assetScale := sessionScale, lastUpdated := now }
  (setGuestPayment st1gp.1 guestId sessionId gp1, gp1)

/-- The questions `getGuestBalance` attributes to a guest:
`q.submitterWalletAddress === guestId || q.guestId === guestId`. -/
def guestQuestionsOf (questions : List Question) (guestId : String) : List Question :=
  questions.filter fun q => q.submitterWalletAddress = guestId ∨ q.guestId = some guestId

/-- `creditsUsed` in `getGuestBalance`: the questions of the guest whose status is
not "pending_payment" (the awaiting-payment status). -/
def creditsUsedOf (questions : List Question) (guestId : String) : ℕ :=
  ((guestQuestionsOf questions guestId).filter fun q => q.status ≠ "pending_payment").length

/-- `getGuestBalance(guestId, sessionId)`: `none` when there is no payment
record or no session; otherwise the derived balance/credits view.
`Math.floor` of the binary64 quotient of two integer amounts in range is
natural-number division. -/
def getGuestBalance (st : Store) (guestId sessionId : String) : Option GuestBalance :=
  match getGuestPayment st guestId sessionId with
  | none => none
  | some gp =>
    match st.sessions sessionId with
    | none => none
    | some session =>
      let questions := st.questions sessionId
      let creditsUsed := creditsUsedOf questions guestId
      -- convert totalReceived to session currency if there is a mismatch (safeguard)
      let totalReceivedInSessionCurrency :=
        if gp.assetCode ≠ session.assetCode ∨ gp.assetScale ≠ session.assetScale then
          convertAmount gp.totalReceived gp.assetScale session.assetScale
        else gp.totalReceived
      let questionPrice := session.questionPrice
      let totalCreditsEarned : ℤ :=
        if questionPrice > 0 then ((totalReceivedInSessionCurrency / questionPrice : ℕ) : ℤ)
        else 0
      let questionCredits : ℤ := max 0 (totalCreditsEarned - (creditsUsed : ℤ))
      let spent : ℤ := (creditsUsed : ℤ) * (questionPrice : ℤ)
      let balance : ℤ := (totalReceivedInSessionCurrency : ℤ) - spent
      some { guestId := guestId, sessionId := sessionId,
             balance := max 0 balance, totalReceived := gp.totalReceived,
             questionCredits := questionCredits,
             assetCode := gp.assetCode, assetScale := gp.assetScale }

/-- `deductGuestCredit(guestId, sessionId)`: returns `null` when there is no
balance, throws `"Insufficient credits"` when fewer than one credit is
available, and otherwise returns the balance unchanged (consumption itself
is implicit in question creation). -/
def deductGuestCredit (st : Store) (guestId sessionId : String) :
    Except String (Option GuestBalance) :=
  match getGuestBalance st guestId sessionId with
  | none => .ok none
  | some currentBalance =>
    if currentBalance.questionCredits < 1 then .error "Insufficient credits"
    else .ok (some currentBalance)

/-- `createQuestion`: persist a question under its session. -/
def createQuestion (st : Store) (q : Question) : Store :=
  { st with questions := fun sid =>
      if sid = q.sessionId then st.questions sid ++ [q] else st.questions sid }

/-! ## Route handlers -/

/-- Request body of `POST /api/questions`.  Absent string fields are
embedded as `""` (the falsy value the `||` chains of the handler test for);
`guestId` keeps its option structure because the handler both branches on it
and stores it as optional metadata.  `payment` is reduced to the fields the
handler copies into a `Payment` record; that record itself is outside the
balance/credit state modelled here. -/
structure QuestionsPostBody where
  sessionId : String
  text : String
  submitterName : String
  submitterWalletAddress : String
  amountPaid : ℕ
  status : String
  guestId : Option String
deriving Repr, DecidableEq

/-- Responses of `POST /api/questions` that the credit gate distinguishes:
the 402 "Insufficient credits" rejection and the 201 created question. -/
inductive QuestionsPostResponse where
  | insufficientCredits
  | created (q : Question)
deriving Repr, DecidableEq

/-- `POST /api/questions` (`src/app/api/questions/route.ts`): when `guestId`
and `sessionId` are present and the session exists, re-fetch the guest
balance fresh and reject with 402 before anything is persisted if it is
missing or has fewer than one credit; otherwise call `deductGuestCredit`
(read-only here, since at least one credit was just observed) and persist
the question.  `newId` stands for the generated `nanoid()`. -/
def questionsPOST (st : Store) (body : QuestionsPostBody) (newId : String) (now : ℕ) :
    Store × QuestionsPostResponse :=
  let gateRejects : Bool :=
    match body.guestId with
    | some g =>
      (g != "") && (body.sessionId != "") &&
      (match st.sessions body.sessionId with
       | some _ =>
         (match getGuestBalance st g body.sessionId with
          | none => true
          | some guestBalance => decide (guestBalance.questionCredits < 1))
       | none => false)
    | none => false
  if gateRejects then (st, .insufficientCredits)
  else
    -- const questionPrice = session?.questionPrice || body.amountPaid || 0;
    let questionPrice :=
      match st.sessions body.sessionId with
      | some s => if s.questionPrice ≠ 0 then s.questionPrice else body.amountPaid
      | none => body.amountPaid
    let question : Question :=
      { id := newId, sessionId := body.sessionId, text := body.text,
        submitterName := body.submitterName,
        -- body.submitterWalletAddress || body.guestId
        submitterWalletAddress :=
          (if body.submitterWalletAddress ≠ "" then body.submitterWalletAddress
           else match body.guestId with | some g => g | none => ""),
        amountPaid := questionPrice,
        -- body.status || "paid"
        status := if body.status ≠ "" then body.status else "paid",
        createdAt := now, upvotes := 0,
        -- ...(body.guestId && { guestId: body.guestId })
        guestId := match body.guestId with
                   | some g => if g ≠ "" then some g else none
                   | none => none }
    (createQuestion st question, .created question)

/-- The JSON body returned by `GET /api/guest-payments`: either the computed
balance, or the zero-valued default for a first-time guest. -/
structure BalanceResponse where
  guestId : String
  sessionId : String
  balance : ℤ
  totalReceived : ℕ
  questionCredits : ℤ
  assetCode : String
  assetScale : ℕ
deriving Repr, DecidableEq

/-- `GET /api/guest-payments?guestId=..&sessionId=..`
(`src/app/api/guest-payments/route.ts`): when `getGuestBalance` finds
nothing (new guest or missing session), answer a zero-valued balance with
the `"USD"`/2 defaults rather than an error. -/
def guestPaymentsGET (st : Store) (guestId sessionId : String) : BalanceResponse :=
  match getGuestBalance st guestId sessionId with
  | none =>
    { guestId := guestId, sessionId := sessionId, balance := 0,
      totalReceived := 0, questionCredits := 0, assetCode := "USD", assetScale := 2 }
  | some balance =>
    { guestId := guestId, sessionId := sessionId, balance := balance.balance,
      totalReceived := balance.totalReceived, questionCredits := balance.questionCredits,
      assetCode := balance.assetCode, assetScale := balance.assetScale }

/-! ## The payment poll (`POST /api/guest-payments/poll`) -/

/-- A `receivedAmount` as fetched from a payment-reference URL.  `value` is
the binary64 number `parseFloat` produced from the JSON string. -/
structure ReceivedAmount where
  value : F64
  assetCode : String
  assetScale : ℕ
deriving Repr, DecidableEq

/-- Conversion of one fetched `receivedAmount` into the currency scale of the guest record, as the poll loop performs it:

    receivedInSmallestUnit = Math.floor(receivedValue * Math.pow(10, ra.assetScale))
    convertedAmount = assetScale === ra.assetScale ? receivedInSmallestUnit
      : Math.floor((receivedInSmallestUnit * Math.pow(10, assetScale))
                   / Math.pow(10, ra.assetScale)) -/
def pollConvertOne (assetScale : ℕ) (ra : ReceivedAmount) : ℕ :=
  let receivedInSmallestUnit := (jsMul ra.value (pow10f ra.assetScale)).floor.toNat
  if assetScale = ra.assetScale then receivedInSmallestUnit
  else
    (jsDiv (jsMul (F64.ofNat receivedInSmallestUnit) (pow10f assetScale))
           (pow10f ra.assetScale)).floor.toNat

/-- The accumulator loop of the poll: starting from `totalReceived`, fold over
the per-URL outcomes; a `none` outcome (invalid URL format, fetch failure,
or a payment without a `receivedAmount`) is logged and skipped, a `some`
outcome contributes `Math.max(totalReceived, convertedAmount)`. -/
def pollLoop (assetScale : ℕ) (acc : ℕ) : List (Option ReceivedAmount) → ℕ
  | [] => acc
  | fetch :: rest =>
    pollLoop assetScale
      (match fetch with
       | some ra => max acc (pollConvertOne assetScale ra)
       | none => acc) rest

/-- The aggregate poll result over all URLs of a guest: the loop starts
from `let totalReceived = 0`. -/
def pollAggregate (assetScale : ℕ) (fetches : List (Option ReceivedAmount)) : ℕ :=
  pollLoop assetScale 0 fetches

/-- Response of `POST /api/guest-payments/poll` on the main path. -/
structure PollResponse where
  totalReceived : ℕ
  previousTotal : ℕ
  updated : Bool
deriving Repr, DecidableEq

/-- Result of the poll route: the early return for a guest without payment
URLs, or the response of the main path. -/
inductive PollResult where
  | noUrls
  | polled (r : PollResponse)
deriving Repr, DecidableEq

/-- `POST /api/guest-payments/poll`: fetch every registered URL (`fetches`
lists the outcome per URL, in order), aggregate with `pollAggregate` in the
own currency of the record, and persist through a ratchet `updateGuestBalance`
only when the aggregate strictly exceeds the stored total — otherwise no
write at all happens.  `updated` reports `totalReceived > previousTotal`. -/
def pollPOST (st : Store) (guestId sessionId : String)
    (fetches : List (Option ReceivedAmount)) (now : ℕ) : Store × PollResult :=
  match getGuestPayment st guestId sessionId with
  | none => (st, .noUrls)
  | some guestPayment =>
    if guestPayment.incomingPaymentUrls.length = 0 then (st, .noUrls)
    else
      let assetCode := guestPayment.assetCode
      let assetScale := guestPayment.assetScale
      let totalReceived := pollAggregate assetScale fetches
      let previousTotal := guestPayment.totalReceived
      let st1 :=
        if totalReceived > previousTotal then
          (updateGuestBalance st guestId sessionId totalReceived assetCode assetScale
            false now).1
        else st
      (st1, .polled { totalReceived := totalReceived, previousTotal := previousTotal,
                      updated := decide (totalReceived > previousTotal) })

/-! ## The client-side registration flow
(`src/components/viewer/question-form.tsx`)

On a Web Monetization event carrying an `incomingPayment` URL the viewer
component registers the URL with the backend only if it has not seen it
before, and, once the registration `POST` succeeds, immediately polls that
URL once (`verifyPaymentReceipt`) against the payment network instead of
waiting for the periodic poll cycle. -/

/-- Externally visible actions of the monetization-event handler. -/
inductive ClientAction where
  /-- `fetch("/api/guest-payments", { method: "POST", ... })` -/
  | registerUrl (url : String)
  /-- `verifyPaymentReceipt`: one `GET` of the payment-reference URL. -/
  | verifierPoll (url : String)
deriving Repr, DecidableEq

/-- The `incomingPayment` branch of `handleMonetization`: given the set of
URLs this client has already seen, either do nothing (already seen) or
record the URL, register it with the backend and trigger exactly one
verification poll of it (registration assumed to succeed). -/
def handleMonetizationUrl (seen : List String) (url : String) :
    List String × List ClientAction :=
  if url ∈ seen then (seen, [])
  else (seen ++ [url], [.registerUrl url, .verifierPoll url])

/-- The binary64 value `parseFloat` produces for the string `"0.30"`:
`0.3` rounds to `5404319552844595 * 2^-54`. -/
def parsedPoint30 : F64 := ⟨5404319552844595, -54⟩

/-- The binary64 value `parseFloat` produces for the string `"0.20"`:
`0.2` rounds to `3602879701896397 * 2^-54`. -/
def parsedPoint20 : F64 := ⟨3602879701896397, -54⟩

/-! ## Sequences of balance updates -/

/-- Arguments of one ratchet (poll-semantics) call to `updateGuestBalance`:
`increment` is left unset. -/
structure RatchetCall where
  totalReceived : ℕ
  assetCode : String
  assetScale : ℕ
  now : ℕ
deriving Repr, DecidableEq

/-- Apply one ratchet call, keeping the store. -/
def applyRatchet (st : Store) (guestId sessionId : String) (c : RatchetCall) : Store :=
  (updateGuestBalance st guestId sessionId c.totalReceived c.assetCode c.assetScale
    false c.now).1

/-- Apply a sequence of ratchet calls for one (guestId, sessionId) key. -/
def applyRatchets (guestId sessionId : String) : Store → List RatchetCall → Store
  | st, [] => st
  | st, c :: rest => applyRatchets guestId sessionId (applyRatchet st guestId sessionId c) rest

/-- Apply one streaming-increment call (`increment = true`), keeping the
store; the delta is given in the currency `code`/`scale`. -/
def applyIncrement (st : Store) (guestId sessionId : String) (amount : ℕ)
    (code : String) (scale : ℕ) (now : ℕ) : Store :=
  (updateGuestBalance st guestId sessionId amount code scale true now).1

/-- Apply a sequence of increment calls, every delta in the fixed currency
`code`/`scale`; each list entry is a pair (delta, timestamp). -/
def applyIncrements (guestId sessionId code : String) (scale : ℕ) :
    Store → List (ℕ × ℕ) → Store
  | st, [] => st
  | st, d :: rest =>
    applyIncrements guestId sessionId code scale
      (applyIncrement st guestId sessionId d.1 code scale d.2) rest

/-- The totalReceived currently stored for a (guestId, sessionId) key
(zero when no record exists). -/
def storedTotal (st : Store) (guestId sessionId : String) : ℕ :=
  match getGuestPayment st guestId sessionId with
  | some gp => gp.totalReceived
  | none => 0

/-- The stored record (if any) is expressed in the currency of `sess`. -/
def recordInSessionCurrency (st : Store) (guestId sessionId : String) (sess : Session) : Prop :=
  ∀ gp, getGuestPayment st guestId sessionId = some gp →
    gp.assetCode = sess.assetCode ∧ gp.assetScale = sess.assetScale

/-- Normalization of an incoming amount to the currency of session `sess`,
as `updateGuestBalance` performs it when that session exists and has a
nonempty currency code. -/
def normalizeToSession (sess : Session) (amount : ℕ) (code : String) (scale : ℕ) : ℕ :=
  if code ≠ sess.assetCode ∨ scale ≠ sess.assetScale then
    convertAmount amount scale sess.assetScale
  else amount

/-! ## Specification-side formulas (for the refinement comparison) -/

/-- The credit formula as the specification words it: `totalCreditsEarned =
floor(totalReceivedInSessionCurrency / questionPrice)`, zero when the price
is not positive; `available = max(0, totalCreditsEarned − creditsUsed)`. -/
def specQuestionCredits (totalReceivedInSessionCurrency questionPrice creditsUsed : ℕ) : ℤ :=
  max 0 ((if 0 < questionPrice then
            ((totalReceivedInSessionCurrency / questionPrice : ℕ) : ℤ)
          else 0) - (creditsUsed : ℤ))

/-! ## Concrete fixtures used by witnesses and counterexamples -/

/-- Fixture session: question price 50 smallest units, USD at scale 2. -/
def sessW : Session := { questionPrice := 50, assetCode := "USD", assetScale := 2 }

/-- Fixture question: a paid question by guest `"g1"`. -/
def qW : Question :=
  { id := "q1", sessionId := "s1", text := "hello", submitterName := "Ann",
    submitterWalletAddress := "g1", amountPaid := 50, status := "paid",
    createdAt := 0, upvotes := 0, guestId := some "g1" }

/-- Fixture payment record for guest `"g1"`: one registered URL and 100
smallest units received, in the session currency. -/
def gpW : GuestPayment :=
  { guestId := "g1", sessionId := "s1",
    incomingPaymentUrls := ["https://wallet.example/incoming-payments/p1"],
    totalReceived := 100, assetCode := "USD", assetScale := 2, lastUpdated := 0 }

/-- Fixture payment record for guest `"g2"`: nothing received yet. -/
def gpW2 : GuestPayment :=
  { guestId := "g2", sessionId := "s1", incomingPaymentUrls := [],
    totalReceived := 0, assetCode := "USD", assetScale := 2, lastUpdated := 0 }

/-- Fixture store: one session `"s1"`, one paid question by `"g1"`, and the
two payment records above. -/
def storeW : Store :=
  { sessions := fun sid => if sid = "s1" then some sessW else none,
    questions := fun sid => if sid = "s1" then [qW] else [],
    guestPayments := fun g s =>
      if g = "g1" ∧ s = "s1" then some gpW
      else if g = "g2" ∧ s = "s1" then some gpW2 else none }

/-- A legacy payment record stored at scale 4 while its session uses
scale 2: 100 smallest units at scale 4 denote the display value 0.01. -/
def gpLegacy : GuestPayment :=
  { guestId := "g1", sessionId := "s1", incomingPaymentUrls := [],
    totalReceived := 100, assetCode := "USD", assetScale := 4, lastUpdated := 0 }

/-- Fixture store holding the legacy record under session `"s1"`. -/
def storeLegacy : Store :=
  { sessions := fun sid => if sid = "s1" then some sessW else none,
    questions := fun _ => [],
    guestPayments := fun g s =>
      if g = "g1" ∧ s = "s1" then some gpLegacy else none }

/-! ## Helper lemmas -/

theorem getGuestPayment_set_same (st : Store) (g s : String) (gp : GuestPayment) :
    getGuestPayment (setGuestPayment st g s gp) g s = some gp := by
  simp [getGuestPayment, setGuestPayment]

theorem updateGuestBalance_sessions (st : Store) (g s : String) (amt : ℕ)
    (code : String) (scale : ℕ) (inc : Bool) (now : ℕ) :
    (updateGuestBalance st g s amt code scale inc now).1.sessions = st.sessions := by
  unfold updateGuestBalance
  cases hgp : getGuestPayment st g s <;>
    simp [hgp, createOrUpdateGuestPayment, setGuestPayment]

theorem updateGuestBalance_questions (st : Store) (g s : String) (amt : ℕ)
    (code : String) (scale : ℕ) (inc : Bool) (now : ℕ) :
    (updateGuestBalance st g s amt code scale inc now).1.questions = st.questions := by
  unfold updateGuestBalance
  cases hgp : getGuestPayment st g s <;>
    simp [hgp, createOrUpdateGuestPayment, setGuestPayment]

theorem updateGuestBalance_stored (st : Store) (g s : String) (amt : ℕ)
    (code : String) (scale : ℕ) (inc : Bool) (now : ℕ) :
    getGuestPayment (updateGuestBalance st g s amt code scale inc now).1 g s =
      some (updateGuestBalance st g s amt code scale inc now).2 := by
  unfold updateGuestBalance
  cases hgp : getGuestPayment st g s <;>
    simp [hgp, createOrUpdateGuestPayment, getGuestPayment, setGuestPayment]

theorem updateGuestBalance_record_matching
    (st : Store) (g s : String) (amt : ℕ) (code : String) (scale : ℕ) (inc : Bool)
    (now : ℕ) (sess : Session) (gp : GuestPayment)
    (hs : st.sessions s = some sess) (hne : sess.assetCode ≠ "")
    (hgp : getGuestPayment st g s = some gp)
    (hc : gp.assetCode = sess.assetCode) (hsc : gp.assetScale = sess.assetScale) :
    (updateGuestBalance st g s amt code scale inc now).2 =
      { gp with
        totalReceived :=
          if inc then gp.totalReceived + normalizeToSession sess amt code scale
          else max gp.totalReceived (normalizeToSession sess amt code scale),
        assetCode := sess.assetCode, assetScale := sess.assetScale,
        lastUpdated := now } := by
  unfold updateGuestBalance normalizeToSession
  rw [hs, hgp]
  simp [sessionCurrencyOf, sessionScaleOf, hne, hc, hsc]

theorem updateGuestBalance_record_absent
    (st : Store) (g s : String) (amt : ℕ) (code : String) (scale : ℕ) (inc : Bool)
    (now : ℕ) (sess : Session)
    (hs : st.sessions s = some sess) (hne : sess.assetCode ≠ "")
    (hgp : getGuestPayment st g s = none) :
    (updateGuestBalance st g s amt code scale inc now).2 =
      { guestId := g, sessionId := s, incomingPaymentUrls := [],
        totalReceived := normalizeToSession sess amt code scale,
        assetCode := sess.assetCode, assetScale := sess.assetScale,
        lastUpdated := now } := by
  unfold updateGuestBalance normalizeToSession createOrUpdateGuestPayment
  rw [hs]
  simp [hgp, sessionCurrencyOf, sessionScaleOf, hne]

theorem updateGuestBalance_currency
    (st : Store) (g s : String) (amt : ℕ) (code : String) (scale : ℕ) (inc : Bool)
    (now : ℕ) (sess : Session)
    (hs : st.sessions s = some sess) (hne : sess.assetCode ≠ "") :
    (updateGuestBalance st g s amt code scale inc now).2.assetCode = sess.assetCode ∧
    (updateGuestBalance st g s amt code scale inc now).2.assetScale = sess.assetScale := by
  unfold updateGuestBalance
  rw [hs]
  cases hgp : getGuestPayment st g s <;>
    simp [hgp, createOrUpdateGuestPayment, sessionCurrencyOf, sessionScaleOf, hne]

theorem updateGuestBalance_keeps
    (st : Store) (g s : String) (amt : ℕ) (code : String) (scale : ℕ) (inc : Bool)
    (now : ℕ) (sess : Session)
    (hs : st.sessions s = some sess) (hne : sess.assetCode ≠ "") :
    (updateGuestBalance st g s amt code scale inc now).1.sessions s = some sess ∧
    recordInSessionCurrency (updateGuestBalance st g s amt code scale inc now).1 g s sess := by
  refine ⟨by rw [updateGuestBalance_sessions]; exact hs, ?_⟩
  intro gp hgp
  rw [updateGuestBalance_stored] at hgp
  injection hgp with h
  subst h
  exact updateGuestBalance_currency st g s amt code scale inc now sess hs hne

theorem applyRatchet_storedTotal
    (st : Store) (g s : String) (c : RatchetCall) (sess : Session)
    (hs : st.sessions s = some sess) (hne : sess.assetCode ≠ "")
    (hmatch : recordInSessionCurrency st g s sess) :
    storedTotal (applyRatchet st g s c) g s =
      max (storedTotal st g s)
        (normalizeToSession sess c.totalReceived c.assetCode c.assetScale) := by
  unfold applyRatchet storedTotal
  rw [updateGuestBalance_stored]
  cases hgp : getGuestPayment st g s with
  | none =>
    rw [updateGuestBalance_record_absent st g s c.totalReceived c.assetCode c.assetScale
      false c.now sess hs hne hgp]
    simp
  | some gp =>
    rw [updateGuestBalance_record_matching st g s c.totalReceived c.assetCode c.assetScale
      false c.now sess gp hs hne hgp (hmatch gp hgp).1 (hmatch gp hgp).2]
    simp

theorem applyIncrement_storedTotal
    (st : Store) (g s : String) (amount now : ℕ) (sess : Session)
    (hs : st.sessions s = some sess) (hne : sess.assetCode ≠ "")
    (hmatch : recordInSessionCurrency st g s sess) :
    storedTotal (applyIncrement st g s amount sess.assetCode sess.assetScale now) g s =
      storedTotal st g s + amount := by
  unfold applyIncrement storedTotal
  rw [updateGuestBalance_stored]
  cases hgp : getGuestPayment st g s with
  | none =>
    rw [updateGuestBalance_record_absent st g s amount sess.assetCode sess.assetScale
      true now sess hs hne hgp]
    simp [normalizeToSession]
  | some gp =>
    rw [updateGuestBalance_record_matching st g s amount sess.assetCode sess.assetScale
      true now sess gp hs hne hgp (hmatch gp hgp).1 (hmatch gp hgp).2]
    simp [normalizeToSession]

theorem applyRatchets_append (g s : String) (calls : List RatchetCall)
    (c : RatchetCall) (st : Store) :
    applyRatchets g s st (calls ++ [c]) =
      applyRatchet (applyRatchets g s st calls) g s c := by
  induction calls generalizing st with
  | nil => simp [applyRatchets]
  | cons d rest ih => simp [applyRatchets, ih]

theorem applyRatchets_invariant (g s : String) (sess : Session)
    (calls : List RatchetCall) (st : Store)
    (hs : st.sessions s = some sess) (hne : sess.assetCode ≠ "")
    (hmatch : recordInSessionCurrency st g s sess) :
    (applyRatchets g s st calls).sessions s = some sess ∧
    recordInSessionCurrency (applyRatchets g s st calls) g s sess := by
  induction calls generalizing st with
  | nil => exact ⟨hs, hmatch⟩
  | cons c rest ih =>
    have keep := updateGuestBalance_keeps st g s c.totalReceived c.assetCode c.assetScale
      false c.now sess hs hne
    exact ih (applyRatchet st g s c) keep.1 keep.2

/-! ## Claims -/

/-- **C1** (amended): for a stored record that is absent or already
expressed in the currency of its existing session (the steady state the
currency invariant guarantees), every further ratchet call replaces the
stored `totalReceived` with the maximum of the stored value and the
incoming amount normalized to the session currency, so `totalReceived`
never decreases across any sequence of ratchet updates.  (As stated over
arbitrary records the claim fails: a record stored at a different scale is
first converted, see the counterexample.) -/
theorem ratchet_totalReceived_monotone
    (st : Store) (g s : String) (sess : Session) (calls : List RatchetCall)
    (c : RatchetCall)
    (hs : st.sessions s = some sess) (hne : sess.assetCode ≠ "")
    (hmatch : recordInSessionCurrency st g s sess) :
    storedTotal (applyRatchets g s st calls) g s ≤
      storedTotal (applyRatchets g s st (calls ++ [c])) g s ∧
    storedTotal (applyRatchets g s st (calls ++ [c])) g s =
      max (storedTotal (applyRatchets g s st calls) g s)
        (normalizeToSession sess c.totalReceived c.assetCode c.assetScale) := by
  have inv := applyRatchets_invariant g s sess calls st hs hne hmatch
  rw [applyRatchets_append]
  have hstep := applyRatchet_storedTotal (applyRatchets g s st calls) g s c sess
    inv.1 hne inv.2
  exact ⟨hstep ▸ le_max_left _ _, hstep⟩

/-- Witness for C1: starting from the fixture store (record for `"g1"` in
the session currency, 100 received), a ratchet to 120 followed by a ratchet
to 110 keeps 120, and the appended call never lowered the total. -/
theorem ratchet_totalReceived_monotone_witness :
    storedTotal (applyRatchets "g1" "s1" storeW [⟨120, "USD", 2, 1⟩]) "g1" "s1" ≤
      storedTotal (applyRatchets "g1" "s1" storeW
        ([⟨120, "USD", 2, 1⟩] ++ [⟨110, "USD", 2, 2⟩])) "g1" "s1" ∧
    storedTotal (applyRatchets "g1" "s1" storeW
        ([⟨120, "USD", 2, 1⟩] ++ [⟨110, "USD", 2, 2⟩])) "g1" "s1" =
      max (storedTotal (applyRatchets "g1" "s1" storeW [⟨120, "USD", 2, 1⟩]) "g1" "s1")
        (normalizeToSession sessW 110 "USD" 2) :=
  ratchet_totalReceived_monotone storeW "g1" "s1" sessW [⟨120, "USD", 2, 1⟩]
    ⟨110, "USD", 2, 2⟩ rfl (by decide)
    (by
      intro gp h
      rw [show getGuestPayment storeW "g1" "s1" = some gpW from rfl] at h
      injection h with h
      subst h
      exact ⟨rfl, rfl⟩)

/-- **C1** counterexample: a record holding 100 smallest units at scale 4
under a session at scale 2 is first converted (display value 0.01 becomes
1 smallest unit), so the ratchet call `updateGuestBalance(.., 0, "USD", 2)`
drops the stored `totalReceived` from 100 to 1 — the unconditional
monotonic non-decrease the claim states is false. -/
theorem ratchet_decreases_on_legacy_scale :
    storedTotal storeLegacy "g1" "s1" = 100 ∧
    storedTotal (applyRatchet storeLegacy "g1" "s1" ⟨0, "USD", 2, 1⟩) "g1" "s1" = 1 ∧
    ¬ (100 : ℕ) ≤ 1 := by
  refine ⟨by decide, by decide, by decide⟩

/-- **C3**: with an existing session, no interleaved ratchet updates, every
delta already in the session currency and scale, and a record that is
absent or already in the session currency, a sequence of `n` streaming
increment calls leaves `totalReceived` at its initial value plus the sum of
the `n` deltas. -/
theorem increments_add_up
    (st : Store) (g s : String) (sess : Session) (deltas : List (ℕ × ℕ))
    (hs : st.sessions s = some sess) (hne : sess.assetCode ≠ "")
    (hmatch : recordInSessionCurrency st g s sess) :
    storedTotal (applyIncrements g s sess.assetCode sess.assetScale st deltas) g s =
      storedTotal st g s + (deltas.map Prod.fst).sum := by
  induction deltas generalizing st with
  | nil => simp [applyIncrements]
  | cons d rest ih =>
    have keep := updateGuestBalance_keeps st g s d.1 sess.assetCode sess.assetScale
      true d.2 sess hs hne
    have hstep := applyIncrement_storedTotal st g s d.1 d.2 sess hs hne hmatch
    calc storedTotal (applyIncrements g s sess.assetCode sess.assetScale st (d :: rest)) g s
        = storedTotal (applyIncrements g s sess.assetCode sess.assetScale
            (applyIncrement st g s d.1 sess.assetCode sess.assetScale d.2) rest) g s := rfl
      _ = storedTotal (applyIncrement st g s d.1 sess.assetCode sess.assetScale d.2) g s
            + (rest.map Prod.fst).sum := ih _ keep.1 keep.2
      _ = storedTotal st g s + ((d :: rest).map Prod.fst).sum := by
            rw [hstep]; simp; omega

/-- Witness for C3: from the fixture record of guest `"g1"` (100 received),
increments of 25 and 10 in the session currency end at 135. -/
theorem increments_add_up_witness :
    storedTotal (applyIncrements "g1" "s1" sessW.assetCode sessW.assetScale storeW
      [(25, 1), (10, 2)]) "g1" "s1" =
      storedTotal storeW "g1" "s1" + ([(25, 1), (10, 2)].map Prod.fst).sum :=
  increments_add_up storeW "g1" "s1" sessW [(25, 1), (10, 2)] rfl (by decide)
    (by
      intro gp h
      rw [show getGuestPayment storeW "g1" "s1" = some gpW from rfl] at h
      injection h with h
      subst h
      exact ⟨rfl, rfl⟩)

/-- **C7**: after any `updateGuestBalance` call (either update path) whose
owning session exists (with a nonempty currency code, as every created
session has), the stored record carries exactly the session currency code
and scale. -/
theorem updateGuestBalance_forces_session_currency
    (st : Store) (g s : String) (amt : ℕ) (code : String) (scale : ℕ) (inc : Bool)
    (now : ℕ) (sess : Session)
    (hs : st.sessions s = some sess) (hne : sess.assetCode ≠ "") :
    (updateGuestBalance st g s amt code scale inc now).2.assetCode = sess.assetCode ∧
    (updateGuestBalance st g s amt code scale inc now).2.assetScale = sess.assetScale ∧
    getGuestPayment (updateGuestBalance st g s amt code scale inc now).1 g s =
      some (updateGuestBalance st g s amt code scale inc now).2 := by
  have h := updateGuestBalance_currency st g s amt code scale inc now sess hs hne
  exact ⟨h.1, h.2, updateGuestBalance_stored st g s amt code scale inc now⟩

/-- Witness for C7: a ratchet for a fresh guest in a mismatched currency
(EUR at scale 4) still stores a record in the session currency USD/2. -/
theorem updateGuestBalance_forces_session_currency_witness :
    (updateGuestBalance storeW "g9" "s1" 12345 "EUR" 4 false 7).2.assetCode =
      sessW.assetCode ∧
    (updateGuestBalance storeW "g9" "s1" 12345 "EUR" 4 false 7).2.assetScale =
      sessW.assetScale ∧
    getGuestPayment (updateGuestBalance storeW "g9" "s1" 12345 "EUR" 4 false 7).1
        "g9" "s1" =
      some (updateGuestBalance storeW "g9" "s1" 12345 "EUR" 4 false 7).2 :=
  updateGuestBalance_forces_session_currency storeW "g9" "s1" 12345 "EUR" 4 false 7
    sessW rfl (by decide)

/-- **C2**: for a guest with a payment record under an existing session,
`getGuestBalance` returns a balance whose `questionCredits` is exactly the
specification formula: `max(0, floor(totalReceivedInSessionCurrency /
questionPrice) − creditsUsed)`, with zero earned credits when the price is
not positive, and `creditsUsed` counting the guest questions whose status
is not the awaiting-payment status `"pending_payment"`. -/
theorem getGuestBalance_credits_formula
    (st : Store) (g s : String) (gp : GuestPayment) (sess : Session)
    (hgp : getGuestPayment st g s = some gp)
    (hs : st.sessions s = some sess) :
    ∃ b, getGuestBalance st g s = some b ∧
      b.questionCredits =
        specQuestionCredits
          (if gp.assetCode ≠ sess.assetCode ∨ gp.assetScale ≠ sess.assetScale then
             convertAmount gp.totalReceived gp.assetScale sess.assetScale
           else gp.totalReceived)
          sess.questionPrice
          (creditsUsedOf (st.questions s) g) := by
  unfold getGuestBalance
  rw [hgp, hs]
  refine ⟨_, rfl, ?_⟩
  simp [specQuestionCredits]

/-- Witness for C2: guest `"g1"` in the fixture store (100 received, price
50, one paid question) gets the formula value. -/
theorem getGuestBalance_credits_formula_witness :
    ∃ b, getGuestBalance storeW "g1" "s1" = some b ∧
      b.questionCredits =
        specQuestionCredits
          (if gpW.assetCode ≠ sessW.assetCode ∨ gpW.assetScale ≠ sessW.assetScale then
             convertAmount gpW.totalReceived gpW.assetScale sessW.assetScale
           else gpW.totalReceived)
          sessW.questionPrice
          (creditsUsedOf (storeW.questions "s1") "g1") :=
  getGuestBalance_credits_formula storeW "g1" "s1" gpW sessW rfl rfl

/-- **C6**: the balance read (`GET /api/guest-payments`) answers a
zero-valued balance — balance 0, totalReceived 0, questionCredits 0 — for a
(guestId, sessionId) with no payment record or no existing session, not an
error. -/
theorem balance_read_zero_for_missing
    (st : Store) (g s : String)
    (h : getGuestPayment st g s = none ∨ st.sessions s = none) :
    guestPaymentsGET st g s =
      { guestId := g, sessionId := s, balance := 0, totalReceived := 0,
        questionCredits := 0, assetCode := "USD", assetScale := 2 } := by
  have hb : getGuestBalance st g s = none := by
    unfold getGuestBalance
    rcases h with h | h
    · rw [h]
    · cases hgp : getGuestPayment st g s with
      | none => rfl
      | some gp => rw [h]
  unfold guestPaymentsGET
  rw [hb]

/-- Witness for C6: guest `"g0"` has no record in the fixture store. -/
theorem balance_read_zero_for_missing_witness :
    guestPaymentsGET storeW "g0" "s1" =
      { guestId := "g0", sessionId := "s1", balance := 0, totalReceived := 0,
        questionCredits := 0, assetCode := "USD", assetScale := 2 } :=
  balance_read_zero_for_missing storeW "g0" "s1" (Or.inl rfl)

/-- **C9** (code evaluation at the failing input): converting 29 smallest
units from scale 2 to scale 2 — the path taken when only the currency code
differs — yields 28, not 29: in binary64 arithmetic
`Math.floor(29 / 100 * 100)` is `Math.floor(28.999999999999996) = 28`.
The second conjunct runs the actual ratchet update for a fresh guest whose
session is USD/2 with an incoming EUR amount of 29 at the same scale 2. -/
theorem same_scale_conversion_drops_a_unit :
    convertAmount 29 2 2 = 28 ∧
    (updateGuestBalance storeW "g9" "s1" 29 "EUR" 2 false 0).2.totalReceived = 28 :=
  ⟨by decide, by decide⟩

/-- **C5**: a credit-gated submission (guestId given, session exists) whose
freshly recomputed balance is missing or has zero credits is rejected with
the insufficient-credits response, the whole store — questions and payment
records — is left unchanged, and `deductGuestCredit` itself throws
`"Insufficient credits"` whenever a balance exists with zero credits. -/
theorem credit_gate_rejects_without_credit
    (st : Store) (body : QuestionsPostBody) (newId : String) (now : ℕ) (g : String)
    (sess : Session)
    (hg : body.guestId = some g) (hgne : g ≠ "") (hsne : body.sessionId ≠ "")
    (hs : st.sessions body.sessionId = some sess)
    (h : getGuestBalance st g body.sessionId = none ∨
         ∃ b, getGuestBalance st g body.sessionId = some b ∧ b.questionCredits = 0) :
    questionsPOST st body newId now = (st, .insufficientCredits) ∧
    ∀ b, getGuestBalance st g body.sessionId = some b →
      deductGuestCredit st g body.sessionId = Except.error "Insufficient credits" := by
  constructor
  · rcases h with hnone | ⟨b, hb, hb0⟩
    · unfold questionsPOST
      rw [hg]
      simp [hgne, hsne, hs, hnone]
    · unfold questionsPOST
      rw [hg]
      simp [hgne, hsne, hs, hb, hb0]
  · intro b hb
    unfold deductGuestCredit
    rw [hb]
    rcases h with hnone | ⟨b', hb', hb0⟩
    · rw [hnone] at hb
      cases hb
    · rw [hb'] at hb
      injection hb with hb
      subst hb
      simp [hb0]

/-- Witness for C5: guest `"g2"` of the fixture store has a record with
nothing received, so the balance exists with zero credits and the gate
rejects the submission without touching the store. -/
theorem credit_gate_rejects_without_credit_witness :
    questionsPOST storeW
        { sessionId := "s1", text := "hi", submitterName := "Ann",
          submitterWalletAddress := "", amountPaid := 0, status := "",
          guestId := some "g2" } "q9" 3 =
      (storeW, .insufficientCredits) ∧
    ∀ b, getGuestBalance storeW "g2" "s1" = some b →
      deductGuestCredit storeW "g2" "s1" = Except.error "Insufficient credits" :=
  credit_gate_rejects_without_credit storeW
    { sessionId := "s1", text := "hi", submitterName := "Ann",
      submitterWalletAddress := "", amountPaid := 0, status := "",
      guestId := some "g2" } "q9" 3 "g2" sessW rfl (by decide) (by decide) rfl
    (Or.inr ⟨_, rfl, by decide⟩)

/-- **C10**: on the main path of the poll route (record present with at
least one URL), the response reports the aggregate, the previous total and
`updated = (aggregate > previousTotal)`; and when the aggregate does not
strictly exceed the stored total the store — hence the record — is left
completely unchanged: no write happens at all. -/
theorem pollPOST_frame_and_flag
    (st : Store) (g s : String) (fetches : List (Option ReceivedAmount)) (now : ℕ)
    (gp : GuestPayment)
    (hgp : getGuestPayment st g s = some gp)
    (hurls : gp.incomingPaymentUrls.length ≠ 0) :
    (pollPOST st g s fetches now).2 =
      .polled { totalReceived := pollAggregate gp.assetScale fetches,
                previousTotal := gp.totalReceived,
                updated := decide (pollAggregate gp.assetScale fetches > gp.totalReceived) } ∧
    (pollAggregate gp.assetScale fetches ≤ gp.totalReceived →
      (pollPOST st g s fetches now).1 = st) := by
  unfold pollPOST
  rw [hgp]
  simp only [hurls, if_neg, ite_false]
  refine ⟨trivial, fun hle => ?_⟩
  rw [if_neg (by omega)]

/-- Witness for C10: polling the fixture record of `"g1"` (100 received)
with one failed fetch aggregates 0 ≤ 100, so the store is untouched and
`updated` is false. -/
theorem pollPOST_frame_and_flag_witness :
    (pollPOST storeW "g1" "s1" [none] 5).2 =
      .polled { totalReceived := pollAggregate gpW.assetScale [none],
                previousTotal := gpW.totalReceived,
                updated :=
                  decide (pollAggregate gpW.assetScale [none] > gpW.totalReceived) } ∧
    (pollPOST storeW "g1" "s1" [none] 5).1 = storeW :=
  ⟨(pollPOST_frame_and_flag storeW "g1" "s1" [none] 5 gpW rfl (by decide)).1,
   (pollPOST_frame_and_flag storeW "g1" "s1" [none] 5 gpW rfl (by decide)).2 (by decide)⟩

theorem pollLoop_init_le (scale : ℕ) (l : List (Option ReceivedAmount)) :
    ∀ acc, acc ≤ pollLoop scale acc l := by
  induction l with
  | nil => intro acc; exact Nat.le_refl acc
  | cons f rest ih =>
    intro acc
    cases f with
    | none => exact ih acc
    | some ra => exact Nat.le_trans (Nat.le_max_left _ _) (ih _)

theorem pollLoop_mem_le (scale : ℕ) (ra : ReceivedAmount)
    (l : List (Option ReceivedAmount)) :
    ∀ acc, some ra ∈ l → pollConvertOne scale ra ≤ pollLoop scale acc l := by
  induction l with
  | nil => intro acc h; cases h
  | cons f rest ih =>
    intro acc h
    cases h with
    | head => exact Nat.le_trans (Nat.le_max_right _ _) (pollLoop_init_le scale rest _)
    | tail b hmem =>
      cases f with
      | none => exact ih acc hmem
      | some ra2 => exact ih _ hmem

theorem pollLoop_acc_or_mem (scale : ℕ) (l : List (Option ReceivedAmount)) :
    ∀ acc, pollLoop scale acc l = acc ∨
      ∃ ra, some ra ∈ l ∧ pollLoop scale acc l = pollConvertOne scale ra := by
  induction l with
  | nil => intro acc; exact Or.inl rfl
  | cons f rest ih =>
    intro acc
    cases f with
    | none =>
      rcases ih acc with h | ⟨ra, hmem, heq⟩
      · exact Or.inl h
      · exact Or.inr ⟨ra, List.mem_cons_of_mem _ hmem, heq⟩
    | some ra =>
      rcases ih (max acc (pollConvertOne scale ra)) with h | ⟨ra2, hmem, heq⟩
      · rcases max_choice acc (pollConvertOne scale ra) with hm | hm
        · exact Or.inl (by rw [show pollLoop scale acc (some ra :: rest) =
            pollLoop scale (max acc (pollConvertOne scale ra)) rest from rfl, h, hm])
        · exact Or.inr ⟨ra, List.mem_cons_self _ _, by
            rw [show pollLoop scale acc (some ra :: rest) =
              pollLoop scale (max acc (pollConvertOne scale ra)) rest from rfl, h, hm]⟩
      · exact Or.inr ⟨ra2, List.mem_cons_of_mem _ hmem, heq⟩

/-- **C4**: the aggregate of one poll is the maximum converted per-URL
amount, not the sum: every fetched amount is bounded by the aggregate, and
the aggregate is zero or one of the fetched amounts.  Concretely, two URLs
reporting `"0.30"` and `"0.20"` at scale 2 aggregate to 30 smallest units —
the maximum — and not to the sum `30 + 20`. -/
theorem pollAggregate_is_max_not_sum
    (scale : ℕ) (fetches : List (Option ReceivedAmount)) :
    (∀ ra, some ra ∈ fetches → pollConvertOne scale ra ≤ pollAggregate scale fetches) ∧
    (pollAggregate scale fetches = 0 ∨
      ∃ ra, some ra ∈ fetches ∧ pollAggregate scale fetches = pollConvertOne scale ra) ∧
    pollAggregate 2 [some ⟨parsedPoint30, "USD", 2⟩, some ⟨parsedPoint20, "USD", 2⟩]
      = 30 ∧
    pollAggregate 2 [some ⟨parsedPoint30, "USD", 2⟩, some ⟨parsedPoint20, "USD", 2⟩]
      ≠ 30 + 20 := by
  refine ⟨fun ra h => pollLoop_mem_le scale ra fetches 0 h,
          pollLoop_acc_or_mem scale fetches 0, by decide, by decide⟩

/-- Witness for C4: for the two-URL scenario, each converted amount is
bounded by the aggregate 30. -/
theorem pollAggregate_is_max_not_sum_witness :
    pollConvertOne 2 ⟨parsedPoint30, "USD", 2⟩ ≤
      pollAggregate 2 [some ⟨parsedPoint30, "USD", 2⟩, some ⟨parsedPoint20, "USD", 2⟩] ∧
    pollConvertOne 2 ⟨parsedPoint20, "USD", 2⟩ ≤
      pollAggregate 2 [some ⟨parsedPoint30, "USD", 2⟩, some ⟨parsedPoint20, "USD", 2⟩] ∧
    pollAggregate 2 [some ⟨parsedPoint30, "USD", 2⟩, some ⟨parsedPoint20, "USD", 2⟩]
      = 30 :=
  ⟨(pollAggregate_is_max_not_sum 2
      [some ⟨parsedPoint30, "USD", 2⟩, some ⟨parsedPoint20, "USD", 2⟩]).1
      ⟨parsedPoint30, "USD", 2⟩ (by decide),
   (pollAggregate_is_max_not_sum 2
      [some ⟨parsedPoint30, "USD", 2⟩, some ⟨parsedPoint20, "USD", 2⟩]).1
      ⟨parsedPoint20, "USD", 2⟩ (by decide),
   (pollAggregate_is_max_not_sum 2
      [some ⟨parsedPoint30, "USD", 2⟩, some ⟨parsedPoint20, "USD", 2⟩]).2.2.1⟩

/-- **C8**: registering a payment-reference URL is an idempotent add — an
already-present URL leaves the stored record (and its URL set) unchanged, a
new URL is appended — and on the first registration of a URL the viewer
flow immediately issues the registration request followed by exactly one
verification poll of that URL; a URL the client has already seen triggers
nothing. -/
theorem register_url_idempotent_and_first_poll
    (st : Store) (g s url code : String) (scale now : ℕ) (seen : List String) :
    (∀ gp, getGuestPayment st g s = some gp →
      (addIncomingPaymentUrl st g s url code scale now).2.incomingPaymentUrls =
        (if url ∈ gp.incomingPaymentUrls then gp.incomingPaymentUrls
         else gp.incomingPaymentUrls ++ [url]) ∧
      (url ∈ gp.incomingPaymentUrls →
        (addIncomingPaymentUrl st g s url code scale now).2 = gp ∧
        getGuestPayment (addIncomingPaymentUrl st g s url code scale now).1 g s =
          some gp)) ∧
    (url ∉ seen →
      (handleMonetizationUrl seen url).2 = [.registerUrl url, .verifierPoll url]) ∧
    (url ∈ seen → (handleMonetizationUrl seen url).2 = []) := by
  refine ⟨?_, ?_, ?_⟩
  · intro gp hgp
    unfold addIncomingPaymentUrl
    rw [hgp]
    constructor
    · by_cases hu : url ∈ gp.incomingPaymentUrls <;> simp [hu]
    · intro hu
      simp [hu, getGuestPayment, setGuestPayment]
  · intro h
    simp [handleMonetizationUrl, h]
  · intro h
    simp [handleMonetizationUrl, h]

/-- Witness for C8: re-registering the URL already stored for `"g1"` keeps
the record unchanged, and a first-seen URL produces the register-then-poll
action pair. -/
theorem register_url_idempotent_and_first_poll_witness :
    (addIncomingPaymentUrl storeW "g1" "s1"
        "https://wallet.example/incoming-payments/p1" "USD" 2 9).2 = gpW ∧
    (handleMonetizationUrl [] "https://wallet.example/incoming-payments/p2").2 =
      [.registerUrl "https://wallet.example/incoming-payments/p2",
       .verifierPoll "https://wallet.example/incoming-payments/p2"] :=
  ⟨(((register_url_idempotent_and_first_poll storeW "g1" "s1"
        "https://wallet.example/incoming-payments/p1" "USD" 2 9 []).1 gpW rfl).2
      (by decide)).1,
   (register_url_idempotent_and_first_poll storeW "g1" "s1"
        "https://wallet.example/incoming-payments/p2" "USD" 2 9
        []).2.1 (by decide)⟩
